import Mathlib

/-!
Verification development for the Drawpile server session-history engine
(src/libserver/sessionhistory.cpp) and the server command/reply JSON codec
(src/libshared/net/servercmd.cpp).

The C++ code is shallowly embedded: member functions become pure Lean
functions on an explicit `SessionHistory` state, machine integers become
`Nat`/`Int` (with the `uint` cast in `addEmergencyMessage` written as an
explicit `% 2^32`), and the virtual backend hooks (pending-log store,
thumbnail store, size-limit override) become explicit state fields or
oracle parameters, following the description of those hooks in the spec.
-/

namespace Drawpile

/-- State of the streamed-reset protocol, per the source enum. -/
inductive ResetStreamState where
  | None
  | Streaming
  | Prepared
deriving DecidableEq, Repr

/-- Result enum of startStreamedReset, per the source. -/
inductive StreamResetStartResult where
  | Ok
  | AlreadyActive
  | OutOfSpace
  | WriteError
deriving DecidableEq, Repr

/-- Result enum of addStreamResetMessage and the consumer callback, per the source. -/
inductive StreamResetAddResult where
  | Ok
  | NotActive
  | InvalidUser
  | BadType
  | DisallowedType
  | OutOfSpace
  | ConsumerError
deriving DecidableEq, Repr

/-- Result enum of prepareStreamedReset, per the source. -/
inductive StreamResetPrepareResult where
  | Ok
  | NotActive
  | InvalidUser
  | OutOfSpace
  | InvalidMessageCount
  | ConsumerError
deriving DecidableEq, Repr

/-- Result enum of abortStreamedReset, per the source. -/
inductive StreamResetAbortResult where
  | Ok
  | NotActive
  | InvalidUser
deriving DecidableEq, Repr

/-- Result enum of startThumbnailGeneration, per the source. -/
inductive ThumbnailStartResult where
  | Ok
  | InvalidUser
  | AlreadyGenerating
deriving DecidableEq, Repr

/-- Result enum of finishThumbnailGeneration, per the source. -/
inductive ThumbnailFinishResult where
  | Ok
  | InvalidUser
  | InvalidCorrelator
  | NoData
  | WriteError
deriving DecidableEq, Repr

/-- Result enum of checkInvite, per the source. -/
inductive CheckInviteResult where
  | NoClientKey
  | NotFound
  | AlreadyInvited
  | AlreadyInvitedNameChanged
  | InviteOk
  | InviteUsed
  | MaxUsesReached
deriving DecidableEq, Repr

/-- Message type tag of chat messages. The numeric value is opaque to the
session history, which only compares type tags for equality. -/
def DP_MSG_CHAT : Nat := 35

/-- Message type tag of reset-stream wrapper messages. -/
def DP_MSG_RESET_STREAM : Nat := 36

/-- Modelled from the spec: the opaque message record seen by the session
history, with fields length (a uint, hence below 2^32), type, contextId and
the isControl and isServerMeta predicates. The net Message class itself is
not part of the analysed sources. -/
structure NetMsg where
  length : Nat
  msgType : Nat
  contextId : Nat
  isControl : Bool
  isServerMeta : Bool
  length_lt : length < 4294967296

/-- One recorded use of an invite: the presented name and a timestamp.
The source field at is renamed atTime because at is a Lean keyword. -/
structure InviteUse where
  name : String
  atTime : String
deriving DecidableEq, Repr

/-- An invite with its secret, metadata and per-client-key uses map.
QHash is a keyed map; it is modelled as an association list with key-based
lookup and update. -/
structure Invite where
  secret : String
  creator : String
  atTime : String
  maxUses : Int
  trust : Bool
  op : Bool
  uses : List (String × InviteUse)
deriving DecidableEq, Repr

/-- Key lookup in an association list, modelling QHash find. -/
def assocFind {α : Type} (k : String) : List (String × α) → Option α
  | [] => none
  | (k', v) :: rest => if k' = k then some v else assocFind k rest

/-- Pointwise update of the value stored under a key, modelling in-place
mutation through a QHash iterator. -/
def assocUpdate {α : Type} (k : String) (f : α → α) : List (String × α) → List (String × α)
  | [] => []
  | (k', v) :: rest =>
    if k' = k then (k', f v) :: rest else (k', v) :: assocUpdate k f rest

/-- The SessionHistory state. Fields mirror the m_ members of the C++
class; the pending reset-stream log and the stored thumbnail, which live
behind backend hooks in the source, are modelled as explicit fields per
the spec description of those hooks, and overrideSizeLimit (a virtual
policy knob) is modelled as a state field. resetStreamConsumer records
whether the lazily allocated consumer currently exists. -/
structure SessionHistory where
  sizeInBytes : Nat
  firstIndex : Int
  lastIndex : Int
  baseSizeLimit : Nat
  overrideSizeLimit : Nat
  lastResetTime : Int
  autoResetBaseSize : Nat
  resetStreamState : ResetStreamState
  resetStreamCtxId : Nat
  resetStreamSize : Nat
  resetStreamStartIndex : Int
  resetStreamMessageCount : Int
  resetStreamAddError : StreamResetAddResult
  resetStreamConsumer : Bool
  resetStreamPending : List NetMsg
  thumbnailCtxId : Nat
  thumbnailCorrelator : String
  thumbnail : Option (List Char)
  invites : List (String × Invite)

/-- Modelled from the spec: a freshly constructed SessionHistory has an
empty log (lastIndex initially -1, firstIndex 0, sizeInBytes 0), no size
limits, no active reset stream and no thumbnail handshake; the constructor
records the current time in lastResetTime. The member initialisers live in
the class header, which is not among the analysed sources. -/
def initialHistory (startSecs : Int) : SessionHistory where
  sizeInBytes := 0
  firstIndex := 0
  lastIndex := -1
  baseSizeLimit := 0
  overrideSizeLimit := 0
  lastResetTime := startSecs
  autoResetBaseSize := 0
  resetStreamState := ResetStreamState.None
  resetStreamCtxId := 0
  resetStreamSize := 0
  resetStreamStartIndex := 0
  resetStreamMessageCount := 0
  resetStreamAddError := StreamResetAddResult.Ok
  resetStreamConsumer := false
  resetStreamPending := []
  thumbnailCtxId := 0
  thumbnailCorrelator := ""
  thumbnail := none
  invites := []

/-- clampSizeLimit from the source: bound a size limit by int max. -/
def clampSizeLimit (sizeLimit : Nat) : Nat :=
  min sizeLimit 2147483647

/-- setBaseSizeLimit from the source. -/
def setBaseSizeLimit (h : SessionHistory) (baseSizeLimit : Nat) : SessionHistory :=
  { h with baseSizeLimit := clampSizeLimit baseSizeLimit }

/-- currentSizeLimit from the source: the override when nonzero, else the
base limit. -/
def currentSizeLimit (h : SessionHistory) : Nat :=
  if h.overrideSizeLimit = 0 then h.baseSizeLimit else h.overrideSizeLimit

/-- hasSpaceFor from the source: there is room for bytes more bytes given
an extra allowance, or no limit is configured. -/
def hasSpaceFor (h : SessionHistory) (bytes extra : Nat) : Bool :=
  currentSizeLimit h = 0 ∨ h.sizeInBytes + bytes ≤ currentSizeLimit h + extra

/-- Modelled from the spec: the regular tier checks against the plain size
limit. The hasRegularSpaceFor wrapper lives in the class header, which is
not among the analysed sources. -/
def hasRegularSpaceFor (h : SessionHistory) (bytes : Nat) : Bool :=
  hasSpaceFor h bytes 0

/-- Modelled from the spec: the emergency tier extends the ceiling by an
implementation-defined extra allowance, here taken as a parameter. The
hasEmergencySpaceFor wrapper lives in the class header, which is not among
the analysed sources. -/
def hasEmergencySpaceFor (h : SessionHistory) (bytes extra : Nat) : Bool :=
  hasSpaceFor h bytes extra

/-- addMessageInternal from the source: account the bytes and advance the
last index. The historyAdd persistence hook has no observable effect on
this state. -/
def addMessageInternal (h : SessionHistory) (bytes : Nat) : SessionHistory :=
  { h with sizeInBytes := h.sizeInBytes + bytes, lastIndex := h.lastIndex + 1 }

/-- addMessage from the source: admit the message iff it fits in regular
space. -/
def addMessage (h : SessionHistory) (msg : NetMsg) : Bool × SessionHistory :=
  if hasRegularSpaceFor h msg.length then
    (true, addMessageInternal h msg.length)
  else
    (false, h)

/-- addEmergencyMessage from the source: the length is cast to uint before
the check, and the message is admitted iff it fits in emergency space. -/
def addEmergencyMessage (h : SessionHistory) (msg : NetMsg) (extra : Nat) :
    Bool × SessionHistory :=
  let bytes := msg.length % 4294967296
  if hasEmergencySpaceFor h bytes extra then
    (true, addMessageInternal h bytes)
  else
    (false, h)

/-- abortActiveStreamedReset from the source: discard the pending log via
the backend hook, return the reset-stream state to None and free the
consumer. -/
def abortActiveStreamedReset (h : SessionHistory) : SessionHistory :=
  { h with
    resetStreamPending := []
    resetStreamState := ResetStreamState.None
    resetStreamCtxId := 0
    resetStreamConsumer := false }

/-- abortStreamedReset from the source: a negative ctxId means any user. -/
def abortStreamedReset (h : SessionHistory) (ctxId : Int) :
    StreamResetAbortResult × SessionHistory :=
  if h.resetStreamState = ResetStreamState.Streaming then
    if ctxId < 0 ∨ ctxId = (h.resetStreamCtxId : Int) then
      (StreamResetAbortResult.Ok, abortActiveStreamedReset h)
    else
      (StreamResetAbortResult.InvalidUser, h)
  else
    (StreamResetAbortResult.NotActive, h)

/-- Sum of message lengths, written as the accumulating loop of the
source. -/
def sumLengths (msgs : List NetMsg) : Nat :=
  msgs.foldl (fun acc msg => acc + msg.length) 0

/-- reset from the source: reject an oversize replacement history, else
abort any active streamed reset, swap in the new history, stamp the clock
reading now into lastResetTime and rebase the auto-reset threshold. The
clock (QDateTime currentMSecsSinceEpoch) is passed in as now. -/
def reset (h : SessionHistory) (newHistory : List NetMsg) (now : Int) :
    Bool × SessionHistory :=
  let newSize := sumLengths newHistory
  let sizeLimit := currentSizeLimit h
  if 0 < sizeLimit ∧ sizeLimit < newSize then
    (false, h)
  else
    let h1 := (abortStreamedReset h (-1)).2
    (true,
      { h1 with
        sizeInBytes := newSize
        lastResetTime := now
        firstIndex := h1.lastIndex + 1
        lastIndex := h1.lastIndex + (newHistory.length : Int)
        autoResetBaseSize := newSize })

/-- startStreamedReset from the source. The two marker messages (soft
reset and stream-start reply) are constructed outside the analysed state;
their lengths are passed in, as is the outcome of the openResetStream
backend hook, which seeds the pending log with the server-side state
messages on success. -/
def startStreamedReset (h : SessionHistory) (ctxId : Nat)
    (softResetBytes resetStartBytes : Nat) (seed : List NetMsg)
    (openResult : StreamResetStartResult) :
    StreamResetStartResult × SessionHistory :=
  if h.resetStreamState ≠ ResetStreamState.None then
    (StreamResetStartResult.AlreadyActive, h)
  else if ¬ hasRegularSpaceFor h (softResetBytes + resetStartBytes) then
    (StreamResetStartResult.OutOfSpace, h)
  else
    let h1 := addMessageInternal h softResetBytes
    let h2 := addMessageInternal h1 resetStartBytes
    if openResult = StreamResetStartResult.Ok then
      (StreamResetStartResult.Ok,
        { h2 with
          resetStreamState := ResetStreamState.Streaming
          resetStreamCtxId := ctxId
          resetStreamSize := 0
          resetStreamStartIndex := h2.lastIndex + 1
          resetStreamMessageCount := 0
          resetStreamPending := seed })
    else
      (openResult, h2)

/-- receiveResetStreamMessage from the source: the consumer callback for
one decoded inner message. Control messages and non-chat server-meta
messages are disallowed; the message is rejected with OutOfSpace when a
size limit is configured and the accumulated reset-stream size would
exceed it; otherwise its context id is forced to the streaming user and it
is persisted to the pending log (the in-memory backend hook appends and
reports Ok, per the spec description of the pending-log store). -/
def receiveResetStreamMessage (h : SessionHistory) (msg : NetMsg) :
    Bool × SessionHistory :=
  if msg.isControl || (msg.isServerMeta && msg.msgType != DP_MSG_CHAT) then
    (false, { h with resetStreamAddError := StreamResetAddResult.DisallowedType })
  else
    let newSize := h.resetStreamSize + msg.length
    let sizeLimit := currentSizeLimit h
    if 0 < sizeLimit ∧ sizeLimit < newSize then
      (false, { h with resetStreamAddError := StreamResetAddResult.OutOfSpace })
    else
      let h1 := { h with resetStreamSize := newSize }
      let msg1 :=
        if msg.contextId ≠ h1.resetStreamCtxId then
          { msg with contextId := h1.resetStreamCtxId }
        else
          msg
      let h2 := { h1 with resetStreamPending := h1.resetStreamPending ++ [msg1] }
      (true, { h2 with resetStreamMessageCount := h2.resetStreamMessageCount + 1 })

/-- Modelled from the spec: DP_reset_stream_consumer_push feeds buffered
bytes through the decoder and invokes the callback once per decoded inner
message, stopping at the first rejection. The decoded message list stands
for the payload bytes; the decoder itself is not among the analysed
sources. -/
def consumerPush (h : SessionHistory) : List NetMsg → Bool × SessionHistory
  | [] => (true, h)
  | m :: ms =>
    let r := receiveResetStreamMessage h m
    if r.1 then consumerPush r.2 ms else (false, r.2)

/-- addStreamResetMessage from the source: gate on streaming state, user
and message type; an empty payload is a no-op; otherwise lazily allocate
the consumer (allocOk gives the allocation outcome; failure aborts the
active reset), latch ConsumerError, and push the payload through the
consumer, propagating the latched error when the push fails. -/
def addStreamResetMessage (h : SessionHistory) (ctxId : Nat) (msg : NetMsg)
    (payloadSize : Nat) (payload : List NetMsg) (allocOk : Bool) :
    StreamResetAddResult × SessionHistory :=
  if h.resetStreamState ≠ ResetStreamState.Streaming then
    (StreamResetAddResult.NotActive, h)
  else if h.resetStreamCtxId ≠ ctxId then
    (StreamResetAddResult.InvalidUser, h)
  else if msg.msgType ≠ DP_MSG_RESET_STREAM then
    (StreamResetAddResult.BadType, h)
  else if payloadSize = 0 then
    (StreamResetAddResult.Ok, h)
  else if h.resetStreamConsumer = false ∧ allocOk = false then
    (StreamResetAddResult.ConsumerError, abortActiveStreamedReset h)
  else
    let h1 : SessionHistory :=
      { h with
        resetStreamConsumer := true
        resetStreamAddError := StreamResetAddResult.ConsumerError }
    let r := consumerPush h1 payload
    if r.1 then (StreamResetAddResult.Ok, r.2)
    else (r.2.resetStreamAddError, r.2)

/-- prepareStreamedReset from the source: gate on streaming state and
user; drain the consumer (drainMsgs are the inner messages still buffered
when free_finish flushes, finishOk the decoder-side outcome), surfacing
the latched error on drain failure; abort with InvalidMessageCount when
the recorded count does not match the expectation or the expectation is
zero; append a CaughtUp marker to the pending log (the in-memory backend
append reports Ok); then ask the backend to prepare, moving to Prepared on
Ok and to None otherwise. -/
def prepareStreamedReset (h : SessionHistory) (ctxId : Nat)
    (expectedMessageCount : Int) (drainMsgs : List NetMsg) (finishOk : Bool)
    (caughtUpMsg : NetMsg) (backendPrepare : StreamResetPrepareResult) :
    StreamResetPrepareResult × SessionHistory :=
  if h.resetStreamState ≠ ResetStreamState.Streaming then
    (StreamResetPrepareResult.NotActive, h)
  else if h.resetStreamCtxId ≠ ctxId then
    (StreamResetPrepareResult.InvalidUser, h)
  else
    let h1 : SessionHistory :=
      { h with resetStreamAddError := StreamResetAddResult.ConsumerError }
    let r := consumerPush h1 drainMsgs
    let h2 : SessionHistory := { r.2 with resetStreamConsumer := false }
    if ¬ (r.1 && finishOk) then
      if h2.resetStreamAddError = StreamResetAddResult.OutOfSpace then
        (StreamResetPrepareResult.OutOfSpace, h2)
      else
        (StreamResetPrepareResult.ConsumerError, h2)
    else if h2.resetStreamMessageCount ≠ expectedMessageCount ∨
        expectedMessageCount = 0 then
      (StreamResetPrepareResult.InvalidMessageCount, abortActiveStreamedReset h2)
    else
      let h3 : SessionHistory :=
        { h2 with resetStreamPending := h2.resetStreamPending ++ [caughtUpMsg] }
      let st :=
        if backendPrepare = StreamResetPrepareResult.Ok then
          ResetStreamState.Prepared
        else
          ResetStreamState.None
      (backendPrepare, { h3 with resetStreamState := st, resetStreamCtxId := 0 })

/-- resolveStreamedReset from the source: require the Prepared state, ask
the backend to finalize the pending log (backendOk with its reported
message count and byte size), clear the reset-stream state either way, and
on success swap the live log indices and rebase the auto-reset size. -/
def resolveStreamedReset (h : SessionHistory) (backendOk : Bool)
    (messageCount : Int) (szBytes : Nat) : Bool × SessionHistory :=
  if h.resetStreamState ≠ ResetStreamState.Prepared then
    (false, h)
  else
    let h1 : SessionHistory :=
      { h with
        resetStreamState := ResetStreamState.None
        resetStreamCtxId := 0 }
    if ¬ backendOk then
      (false, h1)
    else
      (true,
        { h1 with
          sizeInBytes := szBytes
          firstIndex := h.lastIndex + 1
          lastIndex := h.lastIndex + messageCount
          autoResetBaseSize := h.resetStreamSize })

/-- Modelled from the spec: hasUsesRemaining compares the recorded uses
against the use cap; the accessor lives in the class header, which is not
among the analysed sources. -/
def hasUsesRemaining (invite : Invite) : Bool :=
  (invite.uses.length : Int) < invite.maxUses

/-- checkInviteFor from the source: reject an empty client key; look up
the secret; a client key already in the uses map yields AlreadyInvited
(updating the stored name and yielding AlreadyInvitedNameChanged instead
when this is a real use under a different name); a fresh key consumes one
use when capacity remains and use is requested. The timestamp recorded for
a new use is passed in as nowAt. -/
def checkInviteFor (invites : List (String × Invite))
    (clientKey name secret : String) (use : Bool) (nowAt : String) :
    CheckInviteResult × List (String × Invite) :=
  if clientKey = "" then
    (CheckInviteResult.NoClientKey, invites)
  else if secret ≠ "" then
    match assocFind secret invites with
    | some invite =>
      match assocFind clientKey invite.uses with
      | some u =>
        if ¬ use ∨ u.name = name then
          (CheckInviteResult.AlreadyInvited, invites)
        else
          (CheckInviteResult.AlreadyInvitedNameChanged,
            assocUpdate secret
              (fun inv =>
                { inv with
                  uses := assocUpdate clientKey
                    (fun uu => { uu with name := name }) inv.uses })
              invites)
      | none =>
        if hasUsesRemaining invite then
          if use then
            (CheckInviteResult.InviteUsed,
              assocUpdate secret
                (fun inv =>
                  { inv with uses := inv.uses ++ [(clientKey, InviteUse.mk name nowAt)] })
                invites)
          else
            (CheckInviteResult.InviteOk, invites)
        else
          (CheckInviteResult.MaxUsesReached, invites)
    | none => (CheckInviteResult.NotFound, invites)
  else
    (CheckInviteResult.NotFound, invites)

/-- startThumbnailGeneration from the source: reject context id zero,
report AlreadyGenerating when the same context already holds the
handshake, and otherwise overwrite the stored pair with the context id and
a fresh correlator (built in the source from a static counter and the
clock, passed in here). -/
def startThumbnailGeneration (h : SessionHistory) (contextId : Nat)
    (freshCorrelator : String) : ThumbnailStartResult × SessionHistory :=
  if contextId = 0 then
    (ThumbnailStartResult.InvalidUser, h)
  else if contextId = h.thumbnailCtxId then
    (ThumbnailStartResult.AlreadyGenerating, h)
  else
    (ThumbnailStartResult.Ok,
      { h with thumbnailCtxId := contextId, thumbnailCorrelator := freshCorrelator })

/-- QByteArray startsWith over byte lists: the first argument starts with
the second. -/
def bytesStartWith : List Char → List Char → Bool
  | _, [] => true
  | [], _ :: _ => false
  | c :: cs, p :: ps => c == p && bytesStartWith cs ps

/-- finishThumbnailGeneration from the source: reject a context mismatch,
then a data blob that does not start with the stored correlator bytes;
clear the handshake state; report NoData when nothing follows the
correlator, else persist the remainder through the setThumbnail backend
hook (outcome setThumbOk), reporting WriteError on failure. -/
def finishThumbnailGeneration (h : SessionHistory) (contextId : Nat)
    (data : List Char) (setThumbOk : Bool) :
    ThumbnailFinishResult × SessionHistory :=
  if h.thumbnailCtxId ≠ contextId then
    (ThumbnailFinishResult.InvalidUser, h)
  else
    let correlatorBytes := h.thumbnailCorrelator.toList
    if ¬ bytesStartWith data correlatorBytes then
      (ThumbnailFinishResult.InvalidCorrelator, h)
    else
      let h1 : SessionHistory :=
        { h with thumbnailCtxId := 0, thumbnailCorrelator := "" }
      if data.length ≤ correlatorBytes.length then
        (ThumbnailFinishResult.NoData, h1)
      else if setThumbOk then
        (ThumbnailFinishResult.Ok,
          { h1 with thumbnail := some (data.drop correlatorBytes.length) })
      else
        (ThumbnailFinishResult.WriteError, h1)

/-- JSON values as manipulated through QJsonValue, QJsonArray and
QJsonObject. Numbers are modelled as integers; the codec under analysis
never inspects numeric payloads. -/
inductive Json where
  | null
  | bool (b : Bool)
  | num (n : Int)
  | str (s : String)
  | arr (elems : List Json)
  | obj (fields : List (String × Json))

/-- Key lookup in a JSON object field list, modelling QJsonObject value
access; an absent key yields the undefined value, which behaves like null
for the accessors used here. -/
def jsonObjValue (fields : List (String × Json)) (k : String) : Json :=
  match assocFind k fields with
  | some v => v
  | none => Json.null

/-- QJsonValue toString: the string payload, or an empty string for any
other kind of value. -/
def jsonToString : Json → String
  | Json.str s => s
  | _ => ""

/-- QJsonValue toArray: the array payload, or an empty array otherwise. -/
def jsonToArray : Json → List Json
  | Json.arr elems => elems
  | _ => []

/-- QJsonValue toObject and QJsonDocument object: the object payload, or
an empty object otherwise. -/
def jsonToObject : Json → List (String × Json)
  | Json.obj fields => fields
  | _ => []

/-- A message as seen by the codec: null, a server-command message whose
payload either parses to a JSON document or not, or a message of some
other type. The byte serialisation between QJsonDocument toJson and
fromJson is abstracted to the document itself; a payload that is not valid
JSON is the none case. -/
inductive CodecMessage where
  | null
  | serverCommand (payload : Option Json)
  | other (msgType : Nat)

/-- ServerCommand from the source: cmd with positional args and keyword
kwargs. -/
structure ServerCommand where
  cmd : String
  args : List Json
  kwargs : List (String × Json)

/-- ServerCommand toMessage from the source: build the JSON object with
cmd always present and args and kwargs only when nonempty, and wrap it in
a server-command message. -/
def ServerCommand.toMessage (c : ServerCommand) : CodecMessage :=
  let data := [("cmd", Json.str c.cmd)]
  let data := if c.args.isEmpty then data else data ++ [("args", Json.arr c.args)]
  let data := if c.kwargs.isEmpty then data else data ++ [("kwargs", Json.obj c.kwargs)]
  CodecMessage.serverCommand (some (Json.obj data))

/-- ServerCommand fromJson from the source: read cmd, args and kwargs out
of the document object with the tolerant QJson accessors. -/
def ServerCommand.fromJson (doc : Json) : ServerCommand :=
  let data := jsonToObject doc
  { cmd := jsonToString (jsonObjValue data "cmd")
    args := jsonToArray (jsonObjValue data "args")
    kwargs := jsonToObject (jsonObjValue data "kwargs") }

/-- ServerCommand fromMessage from the source: a null message, a message
of the wrong type or an unparseable payload yields the empty sentinel
command; otherwise defer to fromJson. -/
def ServerCommand.fromMessage (m : CodecMessage) : ServerCommand :=
  match m with
  | CodecMessage.serverCommand (some doc) => ServerCommand.fromJson doc
  | _ => { cmd := "", args := [], kwargs := [] }

/-- Reply type enum of ServerReply, per the source. -/
inductive ReplyType where
  | Login
  | Message
  | Alert
  | Error
  | Result
  | Log
  | SessionConf
  | SizeLimitWarning
  | Status
  | Reset
  | ResetRequest
  | Catchup
  | CaughtUp
  | BanImpEx
  | OutOfSpace
  | StreamStart
  | StreamProgress
  | PasswordChange
  | InviteCreated
  | Thumbnail
  | Unknown
deriving DecidableEq, Repr

/-- ServerReply from the source: a reply type, the message text and the
raw reply object. -/
structure ServerReply where
  replyType : ReplyType
  message : String
  reply : List (String × Json)

/-- ServerReply fromJson from the source: read the type tag string and map
it through the chain of known tags, defaulting to Unknown; keep the
message field and the whole object. -/
def ServerReply.fromJson (doc : Json) : ServerReply :=
  let data := jsonToObject doc
  let typestr := jsonToString (jsonObjValue data "type")
  let t : ReplyType :=
    if typestr = "login" then ReplyType.Login
    else if typestr = "msg" then ReplyType.Message
    else if typestr = "alert" then ReplyType.Alert
    else if typestr = "error" then ReplyType.Error
    else if typestr = "result" then ReplyType.Result
    else if typestr = "log" then ReplyType.Log
    else if typestr = "sessionconf" then ReplyType.SessionConf
    else if typestr = "sizelimit" then ReplyType.SizeLimitWarning
    else if typestr = "status" then ReplyType.Status
    else if typestr = "reset" then ReplyType.Reset
    else if typestr = "autoreset" then ReplyType.ResetRequest
    else if typestr = "catchup" then ReplyType.Catchup
    else if typestr = "caughtup" then ReplyType.CaughtUp
    else if typestr = "banimpex" then ReplyType.BanImpEx
    else if typestr = "outofspace" then ReplyType.OutOfSpace
    else if typestr = "sstart" then ReplyType.StreamStart
    else if typestr = "sprogress" then ReplyType.StreamProgress
    else if typestr = "passwordchange" then ReplyType.PasswordChange
    else if typestr = "invitecreated" then ReplyType.InviteCreated
    else if typestr = "thumbnail" then ReplyType.Thumbnail
    else ReplyType.Unknown
  { replyType := t
    message := jsonToString (jsonObjValue data "message")
    reply := data }

/-- ServerReply fromMessage from the source: a null message, a message of
the wrong type or an unparseable payload yields the sentinel empty
Unknown reply; otherwise defer to fromJson. -/
def ServerReply.fromMessage (m : CodecMessage) : ServerReply :=
  match m with
  | CodecMessage.serverCommand (some doc) => ServerReply.fromJson doc
  | _ => { replyType := ReplyType.Unknown, message := "", reply := [] }

/-- The closed tag set of the specification: the mapping from type tag
strings to reply types as the spec states it, written independently of the
code path for comparison. -/
def specReplyTypeForTag (typestr : String) : ReplyType :=
  if typestr = "login" then ReplyType.Login
  else if typestr = "msg" then ReplyType.Message
  else if typestr = "alert" then ReplyType.Alert
  else if typestr = "error" then ReplyType.Error
  else if typestr = "result" then ReplyType.Result
  else if typestr = "log" then ReplyType.Log
  else if typestr = "sessionconf" then ReplyType.SessionConf
  else if typestr = "sizelimit" then ReplyType.SizeLimitWarning
  else if typestr = "status" then ReplyType.Status
  else if typestr = "reset" then ReplyType.Reset
  else if typestr = "autoreset" then ReplyType.ResetRequest
  else if typestr = "catchup" then ReplyType.Catchup
  else if typestr = "caughtup" then ReplyType.CaughtUp
  else if typestr = "banimpex" then ReplyType.BanImpEx
  else if typestr = "outofspace" then ReplyType.OutOfSpace
  else if typestr = "sstart" then ReplyType.StreamStart
  else if typestr = "sprogress" then ReplyType.StreamProgress
  else if typestr = "passwordchange" then ReplyType.PasswordChange
  else if typestr = "invitecreated" then ReplyType.InviteCreated
  else if typestr = "thumbnail" then ReplyType.Thumbnail
  else ReplyType.Unknown

/-- Characterisation of the space check as a proposition. -/
theorem hasSpaceFor_eq_true (h : SessionHistory) (b e : Nat) :
    hasSpaceFor h b e = true ↔
      (currentSizeLimit h = 0 ∨ h.sizeInBytes + b ≤ currentSizeLimit h + e) := by
  simp [hasSpaceFor]

/-- A concrete ordinary message of length 600. -/
def msg600 : NetMsg := ⟨600, 0, 1, false, false, by decide⟩

/-- A concrete ordinary message of length 500. -/
def msg500 : NetMsg := ⟨500, 0, 1, false, false, by decide⟩

/-- A concrete ordinary message of length 5. -/
def msg5 : NetMsg := ⟨5, 0, 1, false, false, by decide⟩

/-- An empty session history with a base size limit of 1000 bytes. -/
def hist1000 : SessionHistory := setBaseSizeLimit (initialHistory 0) 1000

/-- C1: addMessage admits a message exactly when no size limit is
configured or the new total stays within the current size limit, and
addEmergencyMessage exactly when the total stays within the limit plus the
emergency extra allowance; an admitted message grows sizeInBytes by its
length and lastIndex by one, and a rejected message leaves the state
unchanged. -/
theorem budget_gate_spec :
    ∀ (h : SessionHistory) (m : NetMsg) (extra : Nat),
      ((addMessage h m).1 = true ↔
        (currentSizeLimit h = 0 ∨ h.sizeInBytes + m.length ≤ currentSizeLimit h)) ∧
      ((addEmergencyMessage h m extra).1 = true ↔
        (currentSizeLimit h = 0 ∨
          h.sizeInBytes + m.length ≤ currentSizeLimit h + extra)) ∧
      ((addMessage h m).1 = true →
        (addMessage h m).2.sizeInBytes = h.sizeInBytes + m.length ∧
        (addMessage h m).2.lastIndex = h.lastIndex + 1) ∧
      ((addMessage h m).1 = false → (addMessage h m).2 = h) ∧
      ((addEmergencyMessage h m extra).1 = true →
        (addEmergencyMessage h m extra).2.sizeInBytes = h.sizeInBytes + m.length ∧
        (addEmergencyMessage h m extra).2.lastIndex = h.lastIndex + 1) ∧
      ((addEmergencyMessage h m extra).1 = false →
        (addEmergencyMessage h m extra).2 = h) := by
  intro h m extra
  have hmod : m.length % 4294967296 = m.length := Nat.mod_eq_of_lt m.length_lt
  have hreg := hasSpaceFor_eq_true h m.length 0
  have heme := hasSpaceFor_eq_true h m.length extra
  constructor
  · unfold addMessage hasRegularSpaceFor
    split_ifs with hb
    · exact iff_of_true rfl (by simpa using hreg.mp hb)
    · refine iff_of_false (by simp) ?_
      intro hp
      exact hb (hreg.mpr (by simpa using hp))
  refine ⟨?_, ?_, ?_, ?_, ?_⟩
  · unfold addEmergencyMessage hasEmergencySpaceFor
    rw [hmod]
    dsimp only
    split_ifs with hb
    · exact iff_of_true rfl (heme.mp hb)
    · exact iff_of_false (by simp) (fun hp => hb (heme.mpr hp))
  · unfold addMessage hasRegularSpaceFor
    split_ifs with hb
    · intro _; exact ⟨rfl, rfl⟩
    · intro hcontra; simp at hcontra
  · unfold addMessage hasRegularSpaceFor
    split_ifs with hb
    · intro hcontra; simp at hcontra
    · intro _; rfl
  · unfold addEmergencyMessage hasEmergencySpaceFor
    rw [hmod]
    dsimp only
    split_ifs with hb
    · intro _; exact ⟨rfl, rfl⟩
    · intro hcontra; simp at hcontra
  · unfold addEmergencyMessage hasEmergencySpaceFor
    rw [hmod]
    dsimp only
    split_ifs with hb
    · intro hcontra; simp at hcontra
    · intro _; rfl

/-- C1 witness: the concrete budget-gate scenario with base limit 1000 on
an empty log. -/
theorem budget_gate_spec_witness :
    (addMessage hist1000 msg600).1 = true ∧
    (addMessage hist1000 msg600).2.sizeInBytes = 600 ∧
    (addMessage (addMessage hist1000 msg600).2 msg500).1 = false ∧
    (addEmergencyMessage (addMessage hist1000 msg600).2 msg500 512).1 = true ∧
    (addEmergencyMessage (addMessage hist1000 msg600).2 msg500 512).2.sizeInBytes = 1100 := by
  have h1 := budget_gate_spec hist1000 msg600 0
  have ht1 : (addMessage hist1000 msg600).1 = true := h1.1.mpr (by decide)
  have h2 := budget_gate_spec (addMessage hist1000 msg600).2 msg500 512
  have ht4 : (addEmergencyMessage (addMessage hist1000 msg600).2 msg500 512).1 = true :=
    h2.2.1.mpr (by decide)
  refine ⟨ht1, (h1.2.2.1 ht1).1, ?_, ht4, (h2.2.2.2.2.1 ht4).1⟩
  have hne : ¬ (currentSizeLimit (addMessage hist1000 msg600).2 = 0 ∨
      (addMessage hist1000 msg600).2.sizeInBytes + msg500.length ≤
        currentSizeLimit (addMessage hist1000 msg600).2) := by decide
  cases hr : (addMessage (addMessage hist1000 msg600).2 msg500).1 with
  | false => rfl
  | true => exact absurd (h2.1.mp hr) hne

/-- C2 counterexample: reset stamps the wall-clock reading into
lastResetTime, so a reset performed while the millisecond clock still
shows the stored value succeeds without strictly increasing
lastResetTime. -/
theorem reset_lastResetTime_not_strict_counterexample :
    (reset (initialHistory 5) [] 5).1 = true ∧
    ¬ (initialHistory 5).lastResetTime < (reset (initialHistory 5) [] 5).2.lastResetTime := by
  decide

/-- C2 amended: an oversize replacement history is rejected with the state
left untouched; otherwise reset succeeds, firstIndex becomes the old
lastIndex plus one, lastIndex advances by the list length, sizeInBytes
becomes the summed length, and lastResetTime takes the clock reading of
the call, which strictly exceeds the old value whenever the clock has
advanced past it. -/
theorem reset_spec_amended :
    ∀ (h : SessionHistory) (L : List NetMsg) (now : Int),
      (0 < currentSizeLimit h ∧ currentSizeLimit h < sumLengths L →
        (reset h L now).1 = false ∧ (reset h L now).2 = h) ∧
      (¬ (0 < currentSizeLimit h ∧ currentSizeLimit h < sumLengths L) →
        (reset h L now).1 = true ∧
        (reset h L now).2.firstIndex = h.lastIndex + 1 ∧
        (reset h L now).2.lastIndex = h.lastIndex + (L.length : Int) ∧
        (reset h L now).2.sizeInBytes = sumLengths L ∧
        (reset h L now).2.lastResetTime = now ∧
        (h.lastResetTime < now → h.lastResetTime < (reset h L now).2.lastResetTime)) := by
  intro h L now
  have habort : (abortStreamedReset h (-1)).2.lastIndex = h.lastIndex := by
    unfold abortStreamedReset abortActiveStreamedReset
    split_ifs <;> rfl
  constructor
  · intro hbig
    unfold reset
    dsimp only
    split_ifs
    exact ⟨rfl, rfl⟩
  · intro hfits
    unfold reset
    dsimp only
    split_ifs
    refine ⟨rfl, ?_, ?_, rfl, rfl, fun hlt => hlt⟩
    · show (abortStreamedReset h (-1)).2.lastIndex + 1 = h.lastIndex + 1
      rw [habort]
    · show (abortStreamedReset h (-1)).2.lastIndex + (L.length : Int) =
        h.lastIndex + (L.length : Int)
      rw [habort]

/-- A concrete ordinary message of length 50. -/
def msg50 : NetMsg := ⟨50, 0, 1, false, false, by decide⟩

/-- A concrete ordinary message of length 60. -/
def msg60 : NetMsg := ⟨60, 0, 1, false, false, by decide⟩

/-- An empty session history with a base size limit of 100 bytes. -/
def hist100 : SessionHistory := setBaseSizeLimit (initialHistory 0) 100

/-- C2 witness: the reset-rejection scenario with base limit 100 and a
replacement history of lengths 50 and 60, plus an accepted reset whose
clock reading has advanced. -/
theorem reset_spec_amended_witness :
    ((reset hist100 [msg50, msg60] 9).1 = false ∧
      (reset hist100 [msg50, msg60] 9).2 = hist100) ∧
    ((reset hist100 [msg50] 9).1 = true ∧
      (reset hist100 [msg50] 9).2.firstIndex = hist100.lastIndex + 1 ∧
      (reset hist100 [msg50] 9).2.lastIndex = hist100.lastIndex + (1 : Int) ∧
      (reset hist100 [msg50] 9).2.sizeInBytes = sumLengths [msg50] ∧
      (reset hist100 [msg50] 9).2.lastResetTime = 9 ∧
      hist100.lastResetTime < (reset hist100 [msg50] 9).2.lastResetTime) := by
  have h1 := (reset_spec_amended hist100 [msg50, msg60] 9).1 (by decide)
  have h2 := (reset_spec_amended hist100 [msg50] 9).2 (by decide)
  exact ⟨h1, h2.1, h2.2.1, h2.2.2.1, h2.2.2.2.1, h2.2.2.2.2.1,
    h2.2.2.2.2.2 (by decide)⟩

/-- The consumer callback never touches the live-log indices or the
reset-stream state. -/
theorem receiveResetStreamMessage_preserves (h : SessionHistory) (m : NetMsg) :
    (receiveResetStreamMessage h m).2.firstIndex = h.firstIndex ∧
    (receiveResetStreamMessage h m).2.lastIndex = h.lastIndex ∧
    (receiveResetStreamMessage h m).2.resetStreamState = h.resetStreamState := by
  unfold receiveResetStreamMessage
  dsimp only
  split_ifs <;> exact ⟨rfl, rfl, rfl⟩

/-- Pushing messages through the consumer never touches the live-log
indices or the reset-stream state. -/
theorem consumerPush_preserves (ms : List NetMsg) :
    ∀ (h : SessionHistory),
      (consumerPush h ms).2.firstIndex = h.firstIndex ∧
      (consumerPush h ms).2.lastIndex = h.lastIndex ∧
      (consumerPush h ms).2.resetStreamState = h.resetStreamState := by
  induction ms with
  | nil => exact fun h => ⟨rfl, rfl, rfl⟩
  | cons m rest ih =>
    intro h
    unfold consumerPush
    dsimp only
    obtain ⟨hf, hl, hs⟩ := receiveResetStreamMessage_preserves h m
    split_ifs with hok
    · obtain ⟨pf, pl, ps⟩ := ih (receiveResetStreamMessage h m).2
      exact ⟨pf.trans hf, pl.trans hl, ps.trans hs⟩
    · exact ⟨hf, hl, hs⟩

/-- C3 counterexample: a successful startStreamedReset already mutates the
live lastIndex (it appends the soft-reset and stream-start markers), so
the live-log indices are not all left untouched before
resolveStreamedReset succeeds. -/
theorem streamed_reset_start_mutates_lastIndex_counterexample :
    (startStreamedReset (initialHistory 0) 7 10 10 [] StreamResetStartResult.Ok).1 =
      StreamResetStartResult.Ok ∧
    (startStreamedReset (initialHistory 0) 7 10 10 [] StreamResetStartResult.Ok).2.lastIndex ≠
      (initialHistory 0).lastIndex := by
  decide

/-- C3 amended: any streamed-reset step that returns an error leaves the
reset-stream state unchanged or at None; firstIndex is never mutated by a
streamed-reset step before a successful resolve; lastIndex is mutated only
by startStreamedReset, which appends the two marker messages to the live
log (advancing it by exactly 2) after passing the space check; and a
successful resolve sets firstIndex to the old lastIndex plus one and
advances lastIndex by the backend-reported message count. -/
theorem streamed_reset_safety_amended :
    (∀ (h : SessionHistory) (ctx softB resetB : Nat) (seed : List NetMsg)
        (openR : StreamResetStartResult),
      (startStreamedReset h ctx softB resetB seed openR).2.firstIndex = h.firstIndex ∧
      ((startStreamedReset h ctx softB resetB seed openR).1 ≠ StreamResetStartResult.Ok →
        (startStreamedReset h ctx softB resetB seed openR).2.resetStreamState =
          h.resetStreamState) ∧
      ((startStreamedReset h ctx softB resetB seed openR).2.lastIndex = h.lastIndex ∨
        (startStreamedReset h ctx softB resetB seed openR).2.lastIndex = h.lastIndex + 2)) ∧
    (∀ (h : SessionHistory) (ctx : Nat) (msg : NetMsg) (psz : Nat)
        (payload : List NetMsg) (allocOk : Bool),
      (addStreamResetMessage h ctx msg psz payload allocOk).2.firstIndex = h.firstIndex ∧
      (addStreamResetMessage h ctx msg psz payload allocOk).2.lastIndex = h.lastIndex ∧
      ((addStreamResetMessage h ctx msg psz payload allocOk).1 ≠ StreamResetAddResult.Ok →
        ((addStreamResetMessage h ctx msg psz payload allocOk).2.resetStreamState =
            h.resetStreamState ∨
          (addStreamResetMessage h ctx msg psz payload allocOk).2.resetStreamState =
            ResetStreamState.None))) ∧
    (∀ (h : SessionHistory) (ctx : Nat) (expected : Int) (drainMsgs : List NetMsg)
        (finishOk : Bool) (cu : NetMsg) (bp : StreamResetPrepareResult),
      (prepareStreamedReset h ctx expected drainMsgs finishOk cu bp).2.firstIndex =
        h.firstIndex ∧
      (prepareStreamedReset h ctx expected drainMsgs finishOk cu bp).2.lastIndex =
        h.lastIndex ∧
      ((prepareStreamedReset h ctx expected drainMsgs finishOk cu bp).1 ≠
          StreamResetPrepareResult.Ok →
        ((prepareStreamedReset h ctx expected drainMsgs finishOk cu bp).2.resetStreamState =
            h.resetStreamState ∨
          (prepareStreamedReset h ctx expected drainMsgs finishOk cu bp).2.resetStreamState =
            ResetStreamState.None))) ∧
    (∀ (h : SessionHistory) (ctx : Int),
      (abortStreamedReset h ctx).2.firstIndex = h.firstIndex ∧
      (abortStreamedReset h ctx).2.lastIndex = h.lastIndex ∧
      ((abortStreamedReset h ctx).1 ≠ StreamResetAbortResult.Ok →
        (abortStreamedReset h ctx).2 = h)) ∧
    (∀ (h : SessionHistory) (bok : Bool) (mc : Int) (sz : Nat),
      ((resolveStreamedReset h bok mc sz).1 = false →
        (resolveStreamedReset h bok mc sz).2.firstIndex = h.firstIndex ∧
        (resolveStreamedReset h bok mc sz).2.lastIndex = h.lastIndex ∧
        ((resolveStreamedReset h bok mc sz).2.resetStreamState = h.resetStreamState ∨
          (resolveStreamedReset h bok mc sz).2.resetStreamState = ResetStreamState.None)) ∧
      ((resolveStreamedReset h bok mc sz).1 = true →
        (resolveStreamedReset h bok mc sz).2.firstIndex = h.lastIndex + 1 ∧
        (resolveStreamedReset h bok mc sz).2.lastIndex = h.lastIndex + mc)) := by
  refine ⟨?_, ?_, ?_, ?_, ?_⟩
  · intro h ctx softB resetB seed openR
    unfold startStreamedReset
    dsimp only
    split_ifs <;>
      first
        | exact ⟨rfl, fun _ => rfl, Or.inl rfl⟩
        | exact ⟨rfl, fun hne => False.elim (hne rfl),
            Or.inr (by show h.lastIndex + 1 + 1 = h.lastIndex + 2; omega)⟩
        | exact ⟨rfl, fun _ => rfl,
            Or.inr (by show h.lastIndex + 1 + 1 = h.lastIndex + 2; omega)⟩
  · intro h ctx msg psz payload allocOk
    obtain ⟨pf, pl, ps⟩ := consumerPush_preserves payload
      { h with
        resetStreamConsumer := true
        resetStreamAddError := StreamResetAddResult.ConsumerError }
    unfold addStreamResetMessage
    dsimp only
    split_ifs <;>
      first
        | exact ⟨rfl, rfl, fun _ => Or.inl rfl⟩
        | exact ⟨rfl, rfl, fun _ => Or.inr rfl⟩
        | exact ⟨pf, pl, fun hne => False.elim (hne rfl)⟩
        | exact ⟨pf, pl, fun _ => Or.inl ps⟩
  · intro h ctx expected drainMsgs finishOk cu bp
    obtain ⟨pf, pl, ps⟩ := consumerPush_preserves drainMsgs
      { h with resetStreamAddError := StreamResetAddResult.ConsumerError }
    simp only [prepareStreamedReset]
    split_ifs <;>
      first
        | exact ⟨rfl, rfl, fun _ => Or.inl rfl⟩
        | exact ⟨pf, pl, fun _ => Or.inl ps⟩
        | exact ⟨pf, pl, fun _ => Or.inr rfl⟩
        | exact ⟨pf, pl, fun hne => absurd ‹bp = StreamResetPrepareResult.Ok› hne⟩
  · intro h ctx
    unfold abortStreamedReset abortActiveStreamedReset
    split_ifs <;>
      first
        | exact ⟨rfl, rfl, fun hne => False.elim (hne rfl)⟩
        | exact ⟨rfl, rfl, fun _ => rfl⟩
  · intro h bok mc sz
    unfold resolveStreamedReset
    split_ifs <;> (try dsimp only) <;>
      first
        | exact ⟨fun _ => ⟨rfl, rfl, Or.inl rfl⟩, fun hc => absurd hc (by decide)⟩
        | exact ⟨fun _ => ⟨rfl, rfl, Or.inr rfl⟩, fun hc => absurd hc (by decide)⟩
        | exact ⟨fun hc => absurd hc (by decide), fun _ => ⟨rfl, rfl⟩⟩

/-- A concrete session history in the Prepared reset-stream state. -/
def exPrepared : SessionHistory :=
  { initialHistory 0 with
    resetStreamState := ResetStreamState.Prepared
    lastIndex := 9
    resetStreamSize := 60 }

/-- C3 witness: resolving a prepared streamed reset at a concrete state
swaps the indices as stated. -/
theorem streamed_reset_safety_amended_witness :
    (resolveStreamedReset exPrepared true 4 80).2.firstIndex = exPrepared.lastIndex + 1 ∧
    (resolveStreamedReset exPrepared true 4 80).2.lastIndex = exPrepared.lastIndex + 4 :=
  (streamed_reset_safety_amended.2.2.2.2 exPrepared true 4 80).2 rfl

/-- A concrete caught-up marker message of length 20. -/
def cuMsg : NetMsg := ⟨20, 0, 0, false, false, by decide⟩

/-- A concrete session history streaming a reset for user 7 with three
messages recorded. -/
def exStreaming : SessionHistory :=
  { initialHistory 0 with
    resetStreamState := ResetStreamState.Streaming
    resetStreamCtxId := 7
    resetStreamMessageCount := 3
    resetStreamConsumer := true }

/-- C4: for the streaming user, when the drain of the consumer succeeds
and the recorded message count differs from the expectation or the
expectation is zero, prepareStreamedReset returns InvalidMessageCount, the
pending log is discarded and the reset-stream state is None afterwards. -/
theorem prepare_wrong_count_spec (h : SessionHistory) (ctx : Nat) (expected : Int)
    (drainMsgs : List NetMsg) (cu : NetMsg) (bp : StreamResetPrepareResult)
    (hs : h.resetStreamState = ResetStreamState.Streaming)
    (hc : h.resetStreamCtxId = ctx)
    (hdrain : (consumerPush
      { h with resetStreamAddError := StreamResetAddResult.ConsumerError } drainMsgs).1 = true)
    (hcount : (consumerPush
        { h with resetStreamAddError := StreamResetAddResult.ConsumerError }
        drainMsgs).2.resetStreamMessageCount ≠ expected ∨ expected = 0) :
    (prepareStreamedReset h ctx expected drainMsgs true cu bp).1 =
      StreamResetPrepareResult.InvalidMessageCount ∧
    (prepareStreamedReset h ctx expected drainMsgs true cu bp).2.resetStreamState =
      ResetStreamState.None ∧
    (prepareStreamedReset h ctx expected drainMsgs true cu bp).2.resetStreamPending = [] := by
  have c1 : ¬ (h.resetStreamState ≠ ResetStreamState.Streaming) := fun hne => hne hs
  have c2 : ¬ (h.resetStreamCtxId ≠ ctx) := fun hne => hne hc
  unfold prepareStreamedReset
  rw [if_neg c1, if_neg c2]
  dsimp only
  have c3 : ¬ ¬ (((consumerPush
      { h with resetStreamAddError := StreamResetAddResult.ConsumerError }
      drainMsgs).1 && true) = true) := by simp [hdrain]
  rw [if_neg c3]
  have c4 : ({ (consumerPush
        { h with resetStreamAddError := StreamResetAddResult.ConsumerError }
        drainMsgs).2 with resetStreamConsumer := false }).resetStreamMessageCount ≠ expected ∨
      expected = 0 := hcount
  rw [if_pos c4]
  exact ⟨rfl, rfl, rfl⟩

/-- C4 witness: the wrong-count scenario, prepare with expected 5 while 3
messages were recorded. -/
theorem prepare_wrong_count_spec_witness :
    (prepareStreamedReset exStreaming 7 5 [] true cuMsg StreamResetPrepareResult.Ok).1 =
      StreamResetPrepareResult.InvalidMessageCount ∧
    (prepareStreamedReset exStreaming 7 5 [] true cuMsg
        StreamResetPrepareResult.Ok).2.resetStreamState = ResetStreamState.None ∧
    (prepareStreamedReset exStreaming 7 5 [] true cuMsg
        StreamResetPrepareResult.Ok).2.resetStreamPending = [] :=
  prepare_wrong_count_spec exStreaming 7 5 [] cuMsg StreamResetPrepareResult.Ok
    rfl rfl rfl (Or.inl (by decide))

/-- C5 counterexample: with no size limit configured (currentSizeLimit is
0), a decoded inner message whose length makes resetStreamSize exceed that
zero limit is still accepted, so the rejection condition does depend on
whether a size limit is configured. -/
theorem reset_stream_no_limit_counterexample :
    (receiveResetStreamMessage exStreaming msg5).1 = true ∧
    currentSizeLimit exStreaming < exStreaming.resetStreamSize + msg5.length := by
  decide

/-- C5 amended: a decoded inner message of an allowed type is rejected
with OutOfSpace exactly when a size limit is configured and
resetStreamSize plus its length exceeds it; on rejection the latched error
is OutOfSpace, the consumer stops at the failing message, and the latched
error is propagated out of addStreamResetMessage. -/
theorem reset_stream_out_of_space_spec (h : SessionHistory) (m : NetMsg)
    (hm : (m.isControl || (m.isServerMeta && m.msgType != DP_MSG_CHAT)) = false) :
    ((receiveResetStreamMessage h m).1 = false ↔
      (0 < currentSizeLimit h ∧ currentSizeLimit h < h.resetStreamSize + m.length)) ∧
    ((receiveResetStreamMessage h m).1 = false →
      (receiveResetStreamMessage h m).2.resetStreamAddError =
        StreamResetAddResult.OutOfSpace) ∧
    (∀ (ctx : Nat) (msg : NetMsg) (psz : Nat) (payload : List NetMsg) (allocOk : Bool),
      h.resetStreamState = ResetStreamState.Streaming →
      h.resetStreamCtxId = ctx →
      msg.msgType = DP_MSG_RESET_STREAM →
      psz ≠ 0 →
      (h.resetStreamConsumer = true ∨ allocOk = true) →
      (consumerPush
        { h with
          resetStreamConsumer := true
          resetStreamAddError := StreamResetAddResult.ConsumerError } payload).1 = false →
      (addStreamResetMessage h ctx msg psz payload allocOk).1 =
        (consumerPush
          { h with
            resetStreamConsumer := true
            resetStreamAddError := StreamResetAddResult.ConsumerError }
          payload).2.resetStreamAddError) := by
  have huge : ¬ ((m.isControl || (m.isServerMeta && m.msgType != DP_MSG_CHAT)) = true) := by
    simp [hm]
  constructor
  · unfold receiveResetStreamMessage
    dsimp only
    rw [if_neg huge]
    split_ifs with hcond <;>
      first
        | exact iff_of_true rfl hcond
        | exact iff_of_false (by simp) hcond
  constructor
  · unfold receiveResetStreamMessage
    dsimp only
    rw [if_neg huge]
    split_ifs with hcond <;>
      first
        | exact fun _ => rfl
        | exact fun hcontra => absurd hcontra (by decide)
  · intro ctx msg psz payload allocOk hst hctx htype hpsz halloc hfail
    have c1 : ¬ (h.resetStreamState ≠ ResetStreamState.Streaming) := fun hne => hne hst
    have c2 : ¬ (h.resetStreamCtxId ≠ ctx) := fun hne => hne hctx
    have c3 : ¬ (msg.msgType ≠ DP_MSG_RESET_STREAM) := fun hne => hne htype
    have c5 : ¬ (h.resetStreamConsumer = false ∧ allocOk = false) := by
      rintro ⟨hf, ha⟩
      rcases halloc with hcons | hok
      · rw [hcons] at hf
        exact Bool.noConfusion hf
      · rw [hok] at ha
        exact Bool.noConfusion ha
    unfold addStreamResetMessage
    rw [if_neg c1, if_neg c2, if_neg c3, if_neg hpsz, if_neg c5]
    dsimp only
    rw [hfail]
    rfl

/-- A streaming session with limit 100 and 98 bytes already streamed. -/
def exStreamingFull : SessionHistory :=
  { initialHistory 0 with
    baseSizeLimit := 100
    resetStreamState := ResetStreamState.Streaming
    resetStreamCtxId := 7
    resetStreamSize := 98
    resetStreamConsumer := true }

/-- A concrete reset-stream wrapper message from user 7. -/
def msgRS : NetMsg := ⟨10, DP_MSG_RESET_STREAM, 7, false, false, by decide⟩

/-- C5 witness: at 98 of 100 bytes, a 5-byte inner message is rejected
with OutOfSpace and the error propagates out of addStreamResetMessage. -/
theorem reset_stream_out_of_space_spec_witness :
    (receiveResetStreamMessage exStreamingFull msg5).1 = false ∧
    (receiveResetStreamMessage exStreamingFull msg5).2.resetStreamAddError =
      StreamResetAddResult.OutOfSpace ∧
    (addStreamResetMessage exStreamingFull 7 msgRS 5 [msg5] true).1 =
      StreamResetAddResult.OutOfSpace := by
  obtain ⟨hiff, hlatch, hprop⟩ := reset_stream_out_of_space_spec exStreamingFull msg5 rfl
  have hrej : (receiveResetStreamMessage exStreamingFull msg5).1 = false :=
    hiff.mpr (by decide)
  refine ⟨hrej, hlatch hrej, ?_⟩
  have hpush : (consumerPush
      { exStreamingFull with
        resetStreamConsumer := true
        resetStreamAddError := StreamResetAddResult.ConsumerError } [msg5]).1 = false := by
    decide
  have hres := hprop 7 msgRS 5 [msg5] true rfl rfl rfl (by decide) (Or.inl rfl) hpush
  exact hres.trans (by decide)

/-- Looking up the updated key after an association-list update yields the
mapped value. -/
theorem assocFind_assocUpdate {α : Type} (k : String) (f : α → α) (xs : List (String × α)) :
    assocFind k (assocUpdate k f xs) = (assocFind k xs).map f := by
  induction xs with
  | nil => rfl
  | cons p rest ih =>
    obtain ⟨k1, v⟩ := p
    by_cases hk : k1 = k <;> simp [assocFind, assocUpdate, hk, ih]

/-- A concrete invite use by bob. -/
def exInviteUse : InviteUse := ⟨"bob", "2024-01-01T00:00:00"⟩

/-- A concrete invite with secret s, two allowed uses and one recorded
use by client key k1. -/
def exInvite : Invite :=
  ⟨"s", "alice", "2024-01-01T00:00:00", 2, true, false, [("k1", exInviteUse)]⟩

/-- A concrete invite store holding only exInvite. -/
def exInvites : List (String × Invite) := [("s", exInvite)]

/-- C6 counterexample: a dry-run probe (use false) by a known client key
under a different name returns AlreadyInvited and leaves the uses map
untouched, so a name change alone does not produce
AlreadyInvitedNameChanged. -/
theorem checkInvite_dry_run_rename_counterexample :
    (checkInviteFor exInvites "k1" "carol" "s" false "t1").1 =
      CheckInviteResult.AlreadyInvited ∧
    (checkInviteFor exInvites "k1" "carol" "s" false "t1").2 = exInvites ∧
    CheckInviteResult.AlreadyInvited ≠ CheckInviteResult.AlreadyInvitedNameChanged := by
  decide

/-- C6 amended: for a client key already in the uses map of the invite,
a real use under a different name updates the stored name and returns
AlreadyInvitedNameChanged; a call with the same stored name, or a dry-run
probe with use false, returns AlreadyInvited and leaves the store
unchanged. -/
theorem checkInvite_known_key_spec (invites : List (String × Invite))
    (clientKey name secret nowAt : String) (use : Bool) (inv : Invite) (u : InviteUse)
    (hk : clientKey ≠ "") (hs : secret ≠ "")
    (hfind : assocFind secret invites = some inv)
    (hu : assocFind clientKey inv.uses = some u) :
    ((use = false ∨ u.name = name) →
      (checkInviteFor invites clientKey name secret use nowAt).1 =
        CheckInviteResult.AlreadyInvited ∧
      (checkInviteFor invites clientKey name secret use nowAt).2 = invites) ∧
    (use = true → u.name ≠ name →
      (checkInviteFor invites clientKey name secret use nowAt).1 =
        CheckInviteResult.AlreadyInvitedNameChanged ∧
      (∃ inv2, assocFind secret
          (checkInviteFor invites clientKey name secret use nowAt).2 = some inv2 ∧
        assocFind clientKey inv2.uses = some { u with name := name })) := by
  unfold checkInviteFor
  rw [if_neg hk, if_pos hs, hfind]
  dsimp only
  rw [hu]
  dsimp only
  constructor
  · intro hcase
    have hcond : ¬ (use = true) ∨ u.name = name := by
      rcases hcase with hfalse | hname
      · exact Or.inl (by simp [hfalse])
      · exact Or.inr hname
    rw [if_pos hcond]
    exact ⟨rfl, rfl⟩
  · intro htrue hname
    have hcond : ¬ (¬ (use = true) ∨ u.name = name) := by
      rintro (hnot | heq)
      · exact hnot htrue
      · exact hname heq
    rw [if_neg hcond]
    refine ⟨rfl, ?_⟩
    exact ⟨{ inv with uses := assocUpdate clientKey (fun uu => { uu with name := name }) inv.uses }, by rw [assocFind_assocUpdate, hfind]; rfl, by rw [assocFind_assocUpdate, hu]; rfl⟩

/-- C6 witness: a real use of the invite by k1 under the new name carol
returns AlreadyInvitedNameChanged and rewrites the stored name. -/
theorem checkInvite_known_key_spec_witness :
    ((checkInviteFor exInvites "k1" "carol" "s" true "t1").1 =
      CheckInviteResult.AlreadyInvitedNameChanged ∧
    (∃ inv2, assocFind "s"
        (checkInviteFor exInvites "k1" "carol" "s" true "t1").2 = some inv2 ∧
      assocFind "k1" inv2.uses = some ⟨"carol", "2024-01-01T00:00:00"⟩)) :=
  (checkInvite_known_key_spec exInvites "k1" "carol" "s" "t1" true exInvite exInviteUse
    (by decide) (by decide) rfl rfl).2 rfl (by decide)

/-- C7: encoding a ServerCommand with non-empty cmd and parsing it back
restores the command, including empty args and kwargs, which are omitted
on encode and restored as empty on parse. -/
theorem servercommand_roundtrip (c : ServerCommand) (hc : c.cmd ≠ "") :
    ServerCommand.fromMessage (ServerCommand.toMessage c) = c := by
  obtain ⟨cmd, args, kwargs⟩ := c
  cases args <;> cases kwargs <;>
    simp [ServerCommand.toMessage, ServerCommand.fromMessage, ServerCommand.fromJson,
      jsonToObject, jsonObjValue, assocFind, jsonToString, jsonToArray, List.isEmpty]

/-- C7 witness: the mute command with two positional arguments round
trips. -/
theorem servercommand_roundtrip_witness :
    (ServerCommand.mk "mute" [Json.num 3, Json.bool true] [] ).cmd ≠ "" ∧
    ServerCommand.fromMessage
      (ServerCommand.toMessage (ServerCommand.mk "mute" [Json.num 3, Json.bool true] [])) =
      ServerCommand.mk "mute" [Json.num 3, Json.bool true] [] :=
  ⟨by decide, servercommand_roundtrip _ (by decide)⟩

/-- C8: ServerReply parsing never fails the caller: a null message, a
message of the wrong type or an unparseable payload yields the sentinel
empty Unknown reply, and otherwise the reply type is exactly the
specification tag mapping applied to the type tag string, with every
unknown tag going to Unknown; the message field is read from the message
tag. -/
theorem serverreply_tolerant_spec :
    (ServerReply.fromMessage CodecMessage.null =
      { replyType := ReplyType.Unknown, message := "", reply := [] }) ∧
    (∀ (t : Nat), ServerReply.fromMessage (CodecMessage.other t) =
      { replyType := ReplyType.Unknown, message := "", reply := [] }) ∧
    (ServerReply.fromMessage (CodecMessage.serverCommand none) =
      { replyType := ReplyType.Unknown, message := "", reply := [] }) ∧
    (∀ (doc : Json), (ServerReply.fromMessage (CodecMessage.serverCommand (some doc))).replyType =
      specReplyTypeForTag (jsonToString (jsonObjValue (jsonToObject doc) "type"))) ∧
    (∀ (doc : Json), (ServerReply.fromMessage (CodecMessage.serverCommand (some doc))).message =
      jsonToString (jsonObjValue (jsonToObject doc) "message")) :=
  ⟨rfl, fun _ => rfl, rfl, fun _ => rfl, fun _ => rfl⟩

/-- C8 witness: a reply document carrying an unknown type tag parses to
the Unknown reply type. -/
theorem serverreply_tolerant_spec_witness :
    (ServerReply.fromMessage (CodecMessage.serverCommand
      (some (Json.obj [("type", Json.str "nonsense")])))).replyType = ReplyType.Unknown :=
  (serverreply_tolerant_spec.2.2.2.1 (Json.obj [("type", Json.str "nonsense")])).trans
    (by decide)

/-- Every byte list starts with the empty byte list. -/
theorem bytesStartWith_nil (d : List Char) : bytesStartWith d [] = true := by
  cases d <;> rfl

/-- C9: for a non-zero context id different from the stored thumbnail
context id, startThumbnailGeneration returns Ok and overwrites the stored
pair with the new context id and the fresh correlator, regardless of
whether another generation is in progress; AlreadyGenerating is returned
only when the context id equals the stored one. -/
theorem thumbnail_start_spec (h : SessionHistory) (ctx : Nat) (fresh : String)
    (h0 : ctx ≠ 0) (h1 : ctx ≠ h.thumbnailCtxId) :
    (startThumbnailGeneration h ctx fresh).1 = ThumbnailStartResult.Ok ∧
    (startThumbnailGeneration h ctx fresh).2.thumbnailCtxId = ctx ∧
    (startThumbnailGeneration h ctx fresh).2.thumbnailCorrelator = fresh ∧
    (∀ (c : Nat) (f : String),
      (startThumbnailGeneration h c f).1 = ThumbnailStartResult.AlreadyGenerating →
      c = h.thumbnailCtxId) := by
  unfold startThumbnailGeneration
  rw [if_neg h0, if_neg h1]
  refine ⟨rfl, rfl, rfl, ?_⟩
  intro c f
  split_ifs with hc1 hc2
  · intro hcontra
    exact absurd hcontra (by decide)
  · exact fun _ => hc2
  · intro hcontra
    exact absurd hcontra (by decide)

/-- A session where user 5 currently holds the thumbnail handshake. -/
def exThumbBusy : SessionHistory :=
  { initialHistory 0 with thumbnailCtxId := 5, thumbnailCorrelator := "old" }

/-- C9 witness: user 7 takes over the thumbnail handshake from user 5. -/
theorem thumbnail_start_spec_witness :
    (startThumbnailGeneration exThumbBusy 7 "7:abc").1 = ThumbnailStartResult.Ok ∧
    (startThumbnailGeneration exThumbBusy 7 "7:abc").2.thumbnailCtxId = 7 ∧
    (startThumbnailGeneration exThumbBusy 7 "7:abc").2.thumbnailCorrelator = "7:abc" := by
  obtain ⟨ha, hb, hcc, _⟩ := thumbnail_start_spec exThumbBusy 7 "7:abc" (by decide) (by decide)
  exact ⟨ha, hb, hcc⟩

/-- C10: with no thumbnail generation active (context id 0 and empty
correlator), finishThumbnailGeneration of context 0 never reports
InvalidUser or InvalidCorrelator; empty data yields NoData, and non-empty
data is persisted whole through setThumbnail, yielding Ok on success and
WriteError on failure. -/
theorem thumbnail_finish_idle_spec (h : SessionHistory) (data : List Char) (ok : Bool)
    (h0 : h.thumbnailCtxId = 0) (hc : h.thumbnailCorrelator = "") :
    (finishThumbnailGeneration h 0 data ok).1 ≠ ThumbnailFinishResult.InvalidUser ∧
    (finishThumbnailGeneration h 0 data ok).1 ≠ ThumbnailFinishResult.InvalidCorrelator ∧
    (data = [] → (finishThumbnailGeneration h 0 data ok).1 = ThumbnailFinishResult.NoData) ∧
    (data ≠ [] → ok = true →
      (finishThumbnailGeneration h 0 data ok).1 = ThumbnailFinishResult.Ok ∧
      (finishThumbnailGeneration h 0 data ok).2.thumbnail = some data) ∧
    (data ≠ [] → ok = false →
      (finishThumbnailGeneration h 0 data ok).1 = ThumbnailFinishResult.WriteError) := by
  have hctx : ¬ (h.thumbnailCtxId ≠ 0) := fun hne => hne h0
  have hpre : ¬ ¬ (bytesStartWith data h.thumbnailCorrelator.toList = true) := by
    rw [hc]
    show ¬ ¬ (bytesStartWith data [] = true)
    simp [bytesStartWith_nil]
  unfold finishThumbnailGeneration
  rw [if_neg hctx]
  dsimp only
  rw [if_neg hpre]
  have hlen : h.thumbnailCorrelator.toList.length = 0 := by rw [hc]; rfl
  rcases hdata : data with _ | ⟨ch, rest⟩
  · rw [if_pos]
    · exact ⟨by simp, by simp, fun _ => rfl,
        fun habs => absurd rfl habs, fun habs => absurd rfl habs⟩
    · rw [hlen]
      exact Nat.le_zero.mpr rfl
  · rw [if_neg]
    · cases ok
      · exact ⟨by simp, by simp, fun habs => List.noConfusion habs,
          fun _ hcontra => Bool.noConfusion hcontra,
          fun _ _ => rfl⟩
      · refine ⟨by simp, by simp, fun habs => List.noConfusion habs,
          fun _ _ => ⟨rfl, ?_⟩, fun _ hcontra => Bool.noConfusion hcontra⟩
        show some ((ch :: rest).drop h.thumbnailCorrelator.toList.length) = some (ch :: rest)
        rw [hlen]
        rfl
    · rw [hlen]
      simp

/-- C10 witness: on an idle session, finishing with context 0 yields
NoData for empty data, persists a one-byte blob on success, and reports
WriteError when the store rejects it. -/
theorem thumbnail_finish_idle_spec_witness :
    ((finishThumbnailGeneration (initialHistory 0) 0 [] true).1 =
      ThumbnailFinishResult.NoData) ∧
    ((finishThumbnailGeneration (initialHistory 0) 0 ['a'] true).1 =
      ThumbnailFinishResult.Ok ∧
      (finishThumbnailGeneration (initialHistory 0) 0 ['a'] true).2.thumbnail =
        some ['a']) ∧
    ((finishThumbnailGeneration (initialHistory 0) 0 ['a'] false).1 =
      ThumbnailFinishResult.WriteError) :=
  ⟨(thumbnail_finish_idle_spec (initialHistory 0) [] true rfl rfl).2.2.1 rfl,
    (thumbnail_finish_idle_spec (initialHistory 0) ['a'] true rfl rfl).2.2.2.1
      (by decide) rfl,
    (thumbnail_finish_idle_spec (initialHistory 0) ['a'] false rfl rfl).2.2.2.2
      (by decide) rfl⟩

end Drawpile
